import Mathlib

/-!
Shallow embedding of the ephemeral-group lifecycle engine of the
`until_gp` repository, and proofs of the spec's claims about it.

Two implementations exist in the source and are both embedded here:

* the client-side engine over the local store
  (`src/src/services/storage.ts`, `StorageService`), whose group record
  is the `Group` interface of the shared types module; times are modelled
  as `Int` milliseconds (JavaScript `Date.getTime()`), and the one
  fractional computation (`percentRemaining`) is modelled exactly over `ℚ`;
* the server-side SQL engine (`process_expired_groups`,
  `generate_invite_code` in the Supabase schema file), with times again as
  `Int` and the `* 0.1` comparison over `ℚ`, plus the Supabase client
  service's `joinGroupWithCode`.
-/

namespace FlowGroups

/-- `GroupStatus` from the shared types module:
`"active" | "expiring_soon" | "archived"`. -/
inductive GroupStatus where
  | active
  | expiring_soon
  | archived
deriving DecidableEq, Repr

/-- `DisbandReason` from the shared types module:
`"time_expired" | "inactivity" | "message_limit" | "manual"`. -/
inductive DisbandReason where
  | time_expired
  | inactivity
  | message_limit
  | manual
deriving DecidableEq, Repr

/-- `MessageStatus` from the shared types module (only `delivered` is used
by the embedded operations). -/
inductive MessageStatus where
  | pending
  | sending
  | sent
  | delivered
  | read
deriving DecidableEq, Repr

/-- `ChatUser`: a member entry `{ id, name }`. -/
structure ChatUser where
  id : String
  name : String
deriving DecidableEq, Repr

/-- The fields of `Message` written by the embedded operations. -/
structure Message where
  id : String
  text : String
  timestamp : Int
  isOwnMessage : Bool
  sender : String
  status : MessageStatus
deriving DecidableEq, Repr

/-- The client `Group` record (the `Group` interface plus the
`GroupSettings` fields inlined).  `settings.expirationTime` is a required
field in the client data model; `inactivityThreshold` and `messageLimit`
are optional. -/
structure Group where
  id : String
  name : String
  members : List ChatUser
  createdAt : Int
  createdBy : String
  lastActivity : Int
  messages : List Message
  lastMessage : Option Message
  status : GroupStatus
  expirationTime : Int
  inactivityThreshold : Option Int
  messageLimit : Option Int
  messageCount : Int
  disbandedAt : Option Int
  disbandReason : Option DisbandReason
  archivedUntil : Option Int
  inviteCode : Option String
  inviteCodeExpiresAt : Option Int
deriving DecidableEq, Repr

/-- One day in milliseconds (`24 * 60 * 60 * 1000`). -/
def dayMs : Int := 24 * 60 * 60 * 1000

/-- `isExpired` in `processExpiredGroups`:
`group.settings.expirationTime.getTime() <= now.getTime()`. -/
def isExpired (g : Group) (now : Int) : Bool :=
  decide (g.expirationTime ≤ now)

/-- `isInactive` in `processExpiredGroups`:
`group.settings.inactivityThreshold && now - lastActivity > threshold * 24*60*60*1000`.
The JavaScript `&&` on a number is falsy at `0`, hence the `d != 0` guard. -/
def isInactive (g : Group) (now : Int) : Bool :=
  match g.inactivityThreshold with
  | none => false
  | some d => d != 0 && decide (now - g.lastActivity > d * dayMs)

/-- `hasReachedMessageLimit` in `processExpiredGroups`:
`group.settings.messageLimit && group.messageCount >= group.settings.messageLimit`,
with the same JavaScript truthiness guard at `0`. -/
def hasReachedMessageLimit (g : Group) : Bool :=
  match g.messageLimit with
  | none => false
  | some m => m != 0 && decide (g.messageCount ≥ m)

/-- The archive condition `isExpired || isInactive || hasReachedMessageLimit`. -/
def archiveTrigger (g : Group) (now : Int) : Bool :=
  isExpired g now || isInactive g now || hasReachedMessageLimit g

/-- The `disbandReason` ternary of `processExpiredGroups`:
`isExpired ? "time_expired" : isInactive ? "inactivity" : "message_limit"`. -/
def clientReason (g : Group) (now : Int) : DisbandReason :=
  if isExpired g now then .time_expired
  else if isInactive g now then .inactivity
  else .message_limit

/-- The archived record built by `processExpiredGroups`: status `archived`,
`disbandedAt = now`, the ternary reason, and
`archivedUntil = now + 30 * 24*60*60*1000` (keep for 30 days). -/
def archiveAt (now : Int) (g : Group) : Group :=
  { g with
    status := .archived
    disbandedAt := some now
    disbandReason := some (clientReason g now)
    archivedUntil := some (now + 30 * dayMs) }

/-- `percentRemaining = remainingTime / totalTime` where
`remainingTime = expirationTime - now` and
`totalTime = expirationTime - createdAt`, computed exactly over `ℚ`. -/
def percentRemaining (g : Group) (now : Int) : ℚ :=
  ((g.expirationTime - now : Int) : ℚ) / ((g.expirationTime - g.createdAt : Int) : ℚ)

/-- The in-memory update of the non-archived branch:
`if (percentRemaining < 0.1 && group.status !== "expiring_soon") group.status = "expiring_soon"`. -/
def expireUpdate (now : Int) (g : Group) : Group :=
  if percentRemaining g now < 1/10 ∧ g.status ≠ .expiring_soon then
    { g with status := .expiring_soon }
  else g

/-- The two AsyncStorage stores read and written by the engine:
`@flowgroups_active_groups` and `@flowgroups_archived_groups`. -/
structure ClientState where
  active : List Group
  archived : List Group
deriving DecidableEq, Repr

/-- The `for (const group of active)` loop of `processExpiredGroups`,
returning `(stillActive, newlyArchived)` in pass order. -/
def sweepLoop (now : Int) : List Group → List Group × List Group
  | [] => ([], [])
  | g :: rest =>
    let p := sweepLoop now rest
    if archiveTrigger g now then (p.1, archiveAt now g :: p.2)
    else (expireUpdate now g :: p.1, p.2)

/-- The retention cleanup inside `StorageService.loadGroups`: keep an
archived group iff `!g.archivedUntil || g.archivedUntil.getTime() > now`. -/
def filterArchived (archived : List Group) (now : Int) : List Group :=
  archived.filter fun g =>
    match g.archivedUntil with
    | none => true
    | some t => decide (t > now)

/-- `StorageService.processExpiredGroups`: the call begins with
`loadGroups()`, whose retention cleanup filters the archived store and
writes the filtered list back whenever it dropped an entry — so the
stored archived content equals `filterArchived` of the old content in
every invocation.  The loop then produces `(stillActive, newlyArchived)`;
only when `newlyArchived.length > 0` is the active store rewritten and
`newlyArchived` appended to the (filtered) archived store. -/
def processExpiredGroups (st : ClientState) (now : Int) : ClientState :=
  if (sweepLoop now st.active).2.isEmpty then
    ⟨st.active, filterArchived st.archived now⟩
  else
    ⟨(sweepLoop now st.active).1,
      filterArchived st.archived now ++ (sweepLoop now st.active).2⟩

/-- The effect of one client sweep on a single group record.  Archived
groups live in the archived store and are never iterated by
`processExpiredGroups` (which loops over `active` only), so they are left
unchanged; a group of the active store is archived when a trigger fires
and otherwise receives the expiring-soon update. -/
def clientSweepGroup (now : Int) (g : Group) : Group :=
  if g.status = .archived then g
  else if archiveTrigger g now then archiveAt now g
  else expireUpdate now g

/-- Iterated client sweeps at the given sequence of times. -/
def clientSweepSeq (g : Group) (ts : List Int) : Group :=
  ts.foldl (fun h t => clientSweepGroup t h) g

/-- Position of a status along `Active → Expiring → Archived`. -/
def statusIdx : GroupStatus → Nat
  | .active => 0
  | .expiring_soon => 1
  | .archived => 2

/-- The `status` column of `public.groups`:
`'active' | 'expiring' | 'archived'`. -/
inductive SqlStatus where
  | active
  | expiring
  | archived
deriving DecidableEq, Repr

/-- The `disband_reason` column of `public.groups`:
`'expired' | 'inactive' | 'message_limit' | 'manual'`. -/
inductive SqlReason where
  | expired
  | inactive
  | message_limit
  | manual
deriving DecidableEq, Repr

/-- One row of `public.groups`, restricted to the columns read or written
by `process_expired_groups`; `message_count` stands for the correlated
subquery `SELECT COUNT(*) FROM public.messages WHERE group_id = groups.id`. -/
structure SqlGroup where
  id : String
  created_at : Int
  expires_at : Option Int
  inactivity_threshold : Option Int
  message_limit : Option Int
  last_activity : Int
  status : SqlStatus
  disbanded_at : Option Int
  disband_reason : Option SqlReason
  message_count : Int
deriving DecidableEq, Repr

/-- Guard of the first UPDATE of `process_expired_groups`:
`status = 'active' AND expires_at IS NOT NULL AND expires_at < NOW()`. -/
def sqlTimeCond (g : SqlGroup) (now : Int) : Bool :=
  g.status == .active &&
    match g.expires_at with
    | some e => decide (e < now)
    | none => false

/-- Guard of the second UPDATE: `status = 'active' AND
inactivity_threshold IS NOT NULL AND
last_activity < NOW() - INTERVAL '1 day' * inactivity_threshold`. -/
def sqlInactiveCond (g : SqlGroup) (now : Int) : Bool :=
  g.status == .active &&
    match g.inactivity_threshold with
    | some d => decide (g.last_activity < now - d * dayMs)
    | none => false

/-- Guard of the third UPDATE: `status = 'active' AND
message_limit IS NOT NULL AND (SELECT COUNT(*) ...) >= message_limit`. -/
def sqlLimitCond (g : SqlGroup) : Bool :=
  g.status == .active &&
    match g.message_limit with
    | some m => decide (g.message_count ≥ m)
    | none => false

/-- Guard of the fourth UPDATE: `status = 'active' AND expires_at IS NOT
NULL AND expires_at > NOW() AND expires_at < NOW() + (expires_at - created_at) * 0.1`,
the fractional product taken exactly over `ℚ`. -/
def sqlExpiringCond (g : SqlGroup) (now : Int) : Bool :=
  g.status == .active &&
    match g.expires_at with
    | some e =>
        decide (now < e) &&
        decide ((e : ℚ) < (now : ℚ) + ((e - g.created_at : Int) : ℚ) * (1/10))
    | none => false

/-- First UPDATE: archive with `disband_reason = 'expired'`. -/
def sqlExpireByTime (now : Int) (g : SqlGroup) : SqlGroup :=
  if sqlTimeCond g now then
    { g with status := .archived, disbanded_at := some now,
             disband_reason := some .expired }
  else g

/-- Second UPDATE: archive with `disband_reason = 'inactive'`. -/
def sqlExpireByInactivity (now : Int) (g : SqlGroup) : SqlGroup :=
  if sqlInactiveCond g now then
    { g with status := .archived, disbanded_at := some now,
             disband_reason := some .inactive }
  else g

/-- Third UPDATE: archive with `disband_reason = 'message_limit'`. -/
def sqlExpireByLimit (now : Int) (g : SqlGroup) : SqlGroup :=
  if sqlLimitCond g then
    { g with status := .archived, disbanded_at := some now,
             disband_reason := some .message_limit }
  else g

/-- Fourth UPDATE: mark expiring soon (`status = 'expiring'`). -/
def sqlMarkExpiring (now : Int) (g : SqlGroup) : SqlGroup :=
  if sqlExpiringCond g now then { g with status := .expiring }
  else g

/-- The SQL function `process_expired_groups` on one row: the four
UPDATE statements executed in order, each re-reading the row state the
previous one left. -/
def sqlProcess (now : Int) (g : SqlGroup) : SqlGroup :=
  sqlMarkExpiring now (sqlExpireByLimit now (sqlExpireByInactivity now (sqlExpireByTime now g)))

/-- Iterated SQL sweeps at the given sequence of times. -/
def sqlSweepSeq (g : SqlGroup) (ts : List Int) : SqlGroup :=
  ts.foldl (fun h t => sqlProcess t h) g

/-- Position of an SQL status along `active → expiring → archived`. -/
def sqlStatusIdx : SqlStatus → Nat
  | .active => 0
  | .expiring => 1
  | .archived => 2

/-- The alphabet of `StorageService.generateInviteCode`:
`"ABCDEFGHIJKLMNOPQRSTUVWXYZ0123456789"`. -/
def inviteCodeChars : List Char :=
  "ABCDEFGHIJKLMNOPQRSTUVWXYZ0123456789".toList

/-- `StorageService.generateInviteCode`: six draws of
`chars.charAt(Math.floor(Math.random() * chars.length))`.  The random
source is abstracted as a function from the draw index to a natural
number, reduced mod the alphabet size exactly as `Math.floor` keeps the
index inside `[0, chars.length)`.  Nothing else is consulted: the store
is not read and no collision check or retry occurs. -/
def generateInviteCode (rand : Nat → Nat) : String :=
  String.mk ((List.range 6).map fun i =>
    inviteCodeChars.getD (rand i % inviteCodeChars.length) 'A')

/-- The SQL function `generate_invite_code`: an unbounded `LOOP` that
draws `upper(substr(md5(random()::text), 1, 6))` candidates and exits as
soon as the candidate matches no `invite_code` already in
`public.groups`.  The candidate stream is abstracted as a list of draws;
`none` means the supplied draws were exhausted without the loop exiting
(the loop itself has no attempt bound and no failure path). -/
def sqlGenerateInviteCode (existingCodes : List String) (candidates : List String) :
    Option String :=
  candidates.find? fun c => !existingCodes.contains c

/-- The invite-code match of `StorageService.joinGroupWithCode`:
`g.inviteCode === inviteCode && g.inviteCodeExpiresAt && g.inviteCodeExpiresAt.getTime() > Date.now()`.
The group's `status` is not consulted. -/
def codeMatches (g : Group) (code : String) (now : Int) : Bool :=
  g.inviteCode == some code &&
    match g.inviteCodeExpiresAt with
    | some t => decide (t > now)
    | none => false

/-- The system message appended on join:
`{ id: "system-" + Date.now(), text: name + "がグループに参加しました", ... }`. -/
def systemJoinMessage (uname : String) (now : Int) : Message :=
  { id := "system-" ++ toString now
    text := uname ++ "がグループに参加しました"
    timestamp := now
    isOwnMessage := false
    sender := "システム"
    status := .delivered }

/-- `StorageService.saveGroup` on the active store: replace the entry
whose `id` matches (the `findIndex` branch), else push at the end. -/
def saveActiveGroup (gs : List Group) (g : Group) : List Group :=
  match gs with
  | [] => [g]
  | h :: t => if h.id = g.id then g :: t else h :: saveActiveGroup t g

/-- The group record after a successful join: the new member pushed, the
system message appended, `lastMessage` and `lastActivity` updated. -/
def joinedGroup (g : Group) (uid uname : String) (now : Int) : Group :=
  { g with
    members := g.members ++ [⟨uid, uname⟩]
    messages := g.messages ++ [systemJoinMessage uname now]
    lastMessage := some (systemJoinMessage uname now)
    lastActivity := now }

/-- `StorageService.joinGroupWithCode`: find the first group of the
active store whose code matches and is unexpired; return `null` when none
does; return the group unchanged when the user is already a member; else
add the member and save. -/
def joinGroupWithCode (st : ClientState) (code uid uname : String) (now : Int) :
    Option Group × ClientState :=
  match st.active.find? (fun g => codeMatches g code now) with
  | none => (none, st)
  | some g =>
    if g.members.any (fun m => m.id == uid) then (some g, st)
    else
      let g' := joinedGroup g uid uname now
      (some g', ⟨saveActiveGroup st.active g', st.archived⟩)

/-- The system message appended on removal:
`{ text: name + "がグループから削除されました", ... }`. -/
def systemRemoveMessage (name : String) (now : Int) : Message :=
  { id := "system-" ++ toString now
    text := name ++ "がグループから削除されました"
    timestamp := now
    isOwnMessage := false
    sender := "システム"
    status := .delivered }

/-- `StorageService.removeMember` on a loaded group: rejected when the
group is archived, when the caller is not the creator (`group.createdBy
!== removedBy`), when the target is the creator, or when the target is
not a member; otherwise the member is filtered out and a system message
appended.  The boolean is the function's return value; the group is the
record as saved back (unchanged on every rejection). -/
def removeMember (g : Group) (memberId removedBy : String) (now : Int) :
    Bool × Group :=
  if g.status = .archived then (false, g)
  else if g.createdBy ≠ removedBy then (false, g)
  else if memberId = g.createdBy then (false, g)
  else
    match g.members.find? (fun m => m.id == memberId) with
    | none => (false, g)
    | some removed =>
      (true,
        { g with
          members := g.members.filter (fun m => m.id ≠ memberId)
          messages := g.messages ++ [systemRemoveMessage removed.name now]
          lastMessage := some (systemRemoveMessage removed.name now)
          lastActivity := now })

/-- One row of `public.groups` as read by the Supabase client service's
`joinGroupWithCode`, with its `group_members` rows inlined as the list of
member user ids. -/
structure SbGroup where
  id : String
  status : SqlStatus
  invite_code : Option String
  invite_code_expires_at : Option Int
  member_ids : List String
deriving DecidableEq, Repr

/-- The `.eq('invite_code', inviteCode).eq('status', 'active').single()`
lookup of the Supabase `joinGroupWithCode`. -/
def sbFindGroupByCode (groups : List SbGroup) (code : String) : Option SbGroup :=
  groups.find? fun g => g.invite_code == some code && g.status == .active

/-- `SupabaseStorageService.joinGroupWithCode`: every failure (no active
group with the code, code expired, already a member) is thrown, caught,
and collapsed to `null`; success inserts a `group_members` row with role
`member`. -/
def sbJoinGroupWithCode (groups : List SbGroup) (code uid : String) (now : Int) :
    Option SbGroup × List SbGroup :=
  match sbFindGroupByCode groups code with
  | none => (none, groups)
  | some g =>
    if (match g.invite_code_expires_at with
        | some t => decide (t < now)
        | none => false) then (none, groups)
    else if g.member_ids.contains uid then (none, groups)
    else
      let g' := { g with member_ids := g.member_ids ++ [uid] }
      (some g', groups.map fun h => if h.id = g.id then g' else h)

/-- A concrete active group created at `T0 = 0` with
`absoluteExpiry = T0 + 100` and no inactivity or message-limit policy. -/
def exGroup100 : Group :=
  { id := "g100", name := "g100", members := [⟨"u1", "U1"⟩], createdAt := 0,
    createdBy := "u1", lastActivity := 0, messages := [], lastMessage := none,
    status := .active, expirationTime := 100, inactivityThreshold := none,
    messageLimit := none, messageCount := 0, disbandedAt := none,
    disbandReason := none, archivedUntil := none, inviteCode := none,
    inviteCodeExpiresAt := none }

/-- A concrete archived group record. -/
def exArchivedGroup : Group :=
  { exGroup100 with
    id := "gArch", status := .archived, disbandedAt := some 100,
    disbandReason := some .time_expired, archivedUntil := some (100 + 30 * dayMs) }

/-- A concrete archived row of `public.groups`. -/
def exSqlArchivedGroup : SqlGroup :=
  { id := "sArch", created_at := 0, expires_at := some 100,
    inactivity_threshold := none, message_limit := none, last_activity := 0,
    status := .archived, disbanded_at := some 100,
    disband_reason := some .expired, message_count := 0 }

/-- A concrete active group sitting exactly at the inactivity boundary
when swept at `now = 86400000` (one day): `inactivityThresholdDays = 1`
and `lastActivityAt = 0`, with a ten-day absolute expiry so no other
trigger interferes. -/
def exBoundaryGroup : Group :=
  { exGroup100 with
    id := "gBound", expirationTime := 864000000, inactivityThreshold := some 1 }

/-- The SQL row sitting exactly at the inactivity boundary at
`now = 86400000`. -/
def exSqlBoundaryGroup : SqlGroup :=
  { id := "sBound", created_at := 0, expires_at := none,
    inactivity_threshold := some 1, message_limit := none, last_activity := 0,
    status := .active, disbanded_at := none, disband_reason := none,
    message_count := 0 }

/-- A concrete active group holding the invite code `"AAAAAA"`. -/
def exGroupCode : Group :=
  { exGroup100 with
    id := "gCode", inviteCode := some "AAAAAA", inviteCodeExpiresAt := some 100 }

/-- A store whose active list holds `exGroupCode`. -/
def exStateCode : ClientState := ⟨[exGroupCode], []⟩

/-- A concrete group in `expiring_soon` status whose invite code
`"CODE42"` is unexpired at `now = 50`. -/
def exExpiringGroup : Group :=
  { exGroup100 with
    id := "gExp", status := .expiring_soon, expirationTime := 1000,
    inviteCode := some "CODE42", inviteCodeExpiresAt := some 100 }

/-- A store whose active list holds `exExpiringGroup`. -/
def exExpiringState : ClientState := ⟨[exExpiringGroup], []⟩

/-- A concrete group with creator `"u1"` and one further member. -/
def exMembersGroup : Group :=
  { exGroup100 with
    id := "gMem", members := [⟨"u1", "U1"⟩, ⟨"u2", "U2"⟩] }

/-- A concrete Supabase group row in `active` status with invite code
`"SB1234"`. -/
def exSbGroup : SbGroup :=
  { id := "sb1", status := .active, invite_code := some "SB1234",
    invite_code_expires_at := some 100, member_ids := ["u1"] }

/-- A client store holding only `exGroup100`, which a sweep at `now = 95`
marks expiring in memory but archives nothing. -/
def exState100 : ClientState := ⟨[exGroup100], []⟩

/-- An archived group whose retention window (`archivedUntil = 10`) has
already elapsed at `now = 95`. -/
def exStaleArchived : Group :=
  { exArchivedGroup with id := "gStale", archivedUntil := some 10 }

/-- A store pairing the trigger-free `exGroup100` with the
past-retention `exStaleArchived`. -/
def exStaleState : ClientState := ⟨[exGroup100], [exStaleArchived]⟩

/-- The client-side expiring-soon test as written on the home screen and
in `processExpiredGroups`: fraction of time remaining
`(absoluteExpiry - now) / (absoluteExpiry - createdAt)` strictly below
`0.1`. -/
def clientExpiringTest (created expires now : ℚ) : Prop :=
  (expires - now) / (expires - created) < 1/10

/-- The server-side expiring-soon test of the SQL sweep:
`expires_at < NOW() + (expires_at - created_at) * 0.1`. -/
def serverExpiringTest (created expires now : ℚ) : Prop :=
  expires < now + (expires - created) * (1/10)

/-- A concrete group whose absolute expiry is past AND whose message
count is at its message limit at `now = 100`. -/
def exDoubleGroup : Group :=
  { exGroup100 with
    id := "gDouble", expirationTime := 50, messageLimit := some 2, messageCount := 2 }

/-- The SQL row with the same double trigger at `now = 100`. -/
def exSqlDoubleGroup : SqlGroup :=
  { id := "sDouble", created_at := 0, expires_at := some 50,
    inactivity_threshold := none, message_limit := some 2, last_activity := 0,
    status := .active, disbanded_at := none, disband_reason := none,
    message_count := 2 }

end FlowGroups

namespace FlowGroups

lemma statusIdx_le_two (s : GroupStatus) : statusIdx s ≤ 2 := by
  cases s <;> simp [statusIdx]

lemma clientSweepGroup_status_mono (now : Int) (g : Group) :
    statusIdx g.status ≤ statusIdx (clientSweepGroup now g).status := by
  unfold clientSweepGroup
  split
  · exact le_refl _
  split
  · simpa [archiveAt] using statusIdx_le_two g.status
  · unfold expireUpdate
    split
    · rename_i hcond
      cases h : g.status <;> simp_all [statusIdx]
    · exact le_refl _

lemma clientSweepGroup_archived (now : Int) (g : Group)
    (h : g.status = .archived) : clientSweepGroup now g = g := by
  unfold clientSweepGroup
  rw [if_pos h]

lemma sqlExpireByTime_not_active (now : Int) (g : SqlGroup)
    (h : g.status ≠ .active) : sqlExpireByTime now g = g := by
  unfold sqlExpireByTime sqlTimeCond
  simp [h]

lemma sqlExpireByInactivity_not_active (now : Int) (g : SqlGroup)
    (h : g.status ≠ .active) : sqlExpireByInactivity now g = g := by
  unfold sqlExpireByInactivity sqlInactiveCond
  simp [h]

lemma sqlExpireByLimit_not_active (now : Int) (g : SqlGroup)
    (h : g.status ≠ .active) : sqlExpireByLimit now g = g := by
  unfold sqlExpireByLimit sqlLimitCond
  simp [h]

lemma sqlMarkExpiring_not_active (now : Int) (g : SqlGroup)
    (h : g.status ≠ .active) : sqlMarkExpiring now g = g := by
  unfold sqlMarkExpiring sqlExpiringCond
  simp [h]

lemma sqlProcess_not_active (now : Int) (g : SqlGroup)
    (h : g.status ≠ .active) : sqlProcess now g = g := by
  unfold sqlProcess
  rw [sqlExpireByTime_not_active now g h, sqlExpireByInactivity_not_active now g h,
    sqlExpireByLimit_not_active now g h, sqlMarkExpiring_not_active now g h]

lemma sqlProcess_status_mono (now : Int) (g : SqlGroup) :
    sqlStatusIdx g.status ≤ sqlStatusIdx (sqlProcess now g).status := by
  by_cases h : g.status = .active
  · rw [h]
    exact Nat.zero_le _
  · rw [sqlProcess_not_active now g h]

end FlowGroups

namespace FlowGroups

lemma clientSweepSeq_cons (g : Group) (t : Int) (ts : List Int) :
    clientSweepSeq g (t :: ts) = clientSweepSeq (clientSweepGroup t g) ts := rfl

lemma sqlSweepSeq_cons (g : SqlGroup) (t : Int) (ts : List Int) :
    sqlSweepSeq g (t :: ts) = sqlSweepSeq (sqlProcess t g) ts := rfl

/-- C1: for every group and every sequence of sweep invocations (client
`processExpiredGroups` or SQL `process_expired_groups`), the status only
ever advances along `Active → Expiring → Archived` (it never decreases in
that order, so `Expiring` never returns to `Active`), and a group already
`Archived` is left entirely unchanged by every further sweep. -/
theorem status_monotone_forward :
    (∀ (g : Group) (ts : List Int),
        statusIdx g.status ≤ statusIdx (clientSweepSeq g ts).status)
    ∧ (∀ (g : Group) (ts : List Int),
        g.status = .archived → clientSweepSeq g ts = g)
    ∧ (∀ (g : SqlGroup) (ts : List Int),
        sqlStatusIdx g.status ≤ sqlStatusIdx (sqlSweepSeq g ts).status)
    ∧ (∀ (g : SqlGroup) (ts : List Int),
        g.status = .archived → sqlSweepSeq g ts = g) := by
  refine ⟨?_, ?_, ?_, ?_⟩
  · intro g ts
    induction ts generalizing g with
    | nil => exact le_refl _
    | cons t ts ih =>
      rw [clientSweepSeq_cons]
      exact le_trans (clientSweepGroup_status_mono t g) (ih _)
  · intro g ts h
    induction ts generalizing g with
    | nil => rfl
    | cons t ts ih =>
      rw [clientSweepSeq_cons, clientSweepGroup_archived t g h]
      exact ih g h
  · intro g ts
    induction ts generalizing g with
    | nil => exact le_refl _
    | cons t ts ih =>
      rw [sqlSweepSeq_cons]
      exact le_trans (sqlProcess_status_mono t g) (ih _)
  · intro g ts h
    induction ts generalizing g with
    | nil => rfl
    | cons t ts ih =>
      have hne : g.status ≠ SqlStatus.active := by rw [h]; intro hc; cases hc
      rw [sqlSweepSeq_cons, sqlProcess_not_active t g hne]
      exact ih g h

/-- Witness for C1 at a concrete archived group and sweep sequence. -/
theorem status_monotone_forward_witness :
    clientSweepSeq exArchivedGroup [0, 1] = exArchivedGroup ∧
    sqlSweepSeq exSqlArchivedGroup [0, 1] = exSqlArchivedGroup :=
  ⟨status_monotone_forward.2.1 exArchivedGroup [0, 1] rfl,
   status_monotone_forward.2.2.2 exSqlArchivedGroup [0, 1] rfl⟩

end FlowGroups

namespace FlowGroups

lemma clientSweepGroup_of_trigger (now : Int) (g : Group)
    (hstat : g.status ≠ .archived) (htrig : archiveTrigger g now = true) :
    clientSweepGroup now g = archiveAt now g := by
  unfold clientSweepGroup
  rw [if_neg hstat, if_pos htrig]

lemma clientSweepGroup_of_no_trigger (now : Int) (g : Group)
    (hstat : g.status ≠ .archived) (htrig : archiveTrigger g now = false) :
    clientSweepGroup now g = expireUpdate now g := by
  unfold clientSweepGroup
  rw [if_neg hstat, if_neg (by simp [htrig])]

lemma sqlProcess_characterization (now : Int) (g : SqlGroup) :
    sqlProcess now g =
      if sqlTimeCond g now then
        { g with status := .archived, disbanded_at := some now,
                 disband_reason := some .expired }
      else if sqlInactiveCond g now then
        { g with status := .archived, disbanded_at := some now,
                 disband_reason := some .inactive }
      else if sqlLimitCond g then
        { g with status := .archived, disbanded_at := some now,
                 disband_reason := some .message_limit }
      else if sqlExpiringCond g now then { g with status := .expiring }
      else g := by
  by_cases ht : sqlTimeCond g now = true
  · have e1 : sqlExpireByTime now g =
        { g with status := .archived, disbanded_at := some now,
                 disband_reason := some .expired } := by
      unfold sqlExpireByTime
      rw [if_pos ht]
    have hne : (sqlExpireByTime now g).status ≠ SqlStatus.active := by
      simp [e1]
    unfold sqlProcess
    rw [sqlExpireByInactivity_not_active _ _ hne, sqlExpireByLimit_not_active _ _ hne,
      sqlMarkExpiring_not_active _ _ hne, e1, if_pos ht]
  · have e1 : sqlExpireByTime now g = g := by
      unfold sqlExpireByTime
      rw [if_neg ht]
    rw [if_neg ht]
    by_cases hi : sqlInactiveCond g now = true
    · have e2 : sqlExpireByInactivity now g =
          { g with status := .archived, disbanded_at := some now,
                   disband_reason := some .inactive } := by
        unfold sqlExpireByInactivity
        rw [if_pos hi]
      have hne : (sqlExpireByInactivity now g).status ≠ SqlStatus.active := by
        simp [e2]
      unfold sqlProcess
      rw [e1, sqlExpireByLimit_not_active _ _ hne,
        sqlMarkExpiring_not_active _ _ hne, e2, if_pos hi]
    · have e2 : sqlExpireByInactivity now g = g := by
        unfold sqlExpireByInactivity
        rw [if_neg hi]
      rw [if_neg hi]
      by_cases hl : sqlLimitCond g = true
      · have e3 : sqlExpireByLimit now g =
            { g with status := .archived, disbanded_at := some now,
                     disband_reason := some .message_limit } := by
          unfold sqlExpireByLimit
          rw [if_pos hl]
        have hne : (sqlExpireByLimit now g).status ≠ SqlStatus.active := by
          simp [e3]
        unfold sqlProcess
        rw [e1, e2, sqlMarkExpiring_not_active _ _ hne, e3, if_pos hl]
      · have e3 : sqlExpireByLimit now g = g := by
          unfold sqlExpireByLimit
          rw [if_neg hl]
        rw [if_neg hl]
        unfold sqlProcess
        rw [e1, e2, e3]
        unfold sqlMarkExpiring
        rfl

/-- C2: triggers are checked in the fixed priority order absolute expiry,
then inactivity, then message limit, and the first match alone fixes the
recorded reason; in particular a group both past its absolute expiry and
at its message limit records the time reason (`time_expired` in the
client, `'expired'` in SQL), never `message_limit`. -/
theorem archive_reason_priority :
    (∀ (g : Group) (now : Int), g.status ≠ .archived → archiveTrigger g now = true →
        (clientSweepGroup now g).status = .archived ∧
        (clientSweepGroup now g).disbandReason =
          some (if isExpired g now then DisbandReason.time_expired
                else if isInactive g now then DisbandReason.inactivity
                else DisbandReason.message_limit))
    ∧ (∀ (g : Group) (now : Int), g.status ≠ .archived →
        isExpired g now = true → hasReachedMessageLimit g = true →
        (clientSweepGroup now g).status = .archived ∧
        (clientSweepGroup now g).disbandReason = some DisbandReason.time_expired)
    ∧ (∀ (g : SqlGroup) (now : Int), g.status = .active →
        (sqlProcess now g).disband_reason =
          if sqlTimeCond g now then some SqlReason.expired
          else if sqlInactiveCond g now then some SqlReason.inactive
          else if sqlLimitCond g then some SqlReason.message_limit
          else g.disband_reason)
    ∧ (∀ (g : SqlGroup) (now : Int), g.status = .active →
        sqlTimeCond g now = true → sqlLimitCond g = true →
        (sqlProcess now g).status = .archived ∧
        (sqlProcess now g).disband_reason = some SqlReason.expired) := by
  refine ⟨?_, ?_, ?_, ?_⟩
  · intro g now hstat htrig
    rw [clientSweepGroup_of_trigger now g hstat htrig]
    exact ⟨rfl, by simp [archiveAt, clientReason]⟩
  · intro g now hstat hexp _hlim
    have htrig : archiveTrigger g now = true := by simp [archiveTrigger, hexp]
    rw [clientSweepGroup_of_trigger now g hstat htrig]
    refine ⟨rfl, ?_⟩
    simp [archiveAt, clientReason, hexp]
  · intro g now h
    rw [sqlProcess_characterization now g]
    by_cases ht : sqlTimeCond g now = true <;>
      by_cases hi : sqlInactiveCond g now = true <;>
      by_cases hl : sqlLimitCond g = true <;>
      by_cases he : sqlExpiringCond g now = true <;>
      simp [ht, hi, hl, he]
  · intro g now h ht hl
    rw [sqlProcess_characterization now g]
    simp [ht]

/-- Witness for C2 at a group past expiry and at its message limit. -/
theorem archive_reason_priority_witness :
    (clientSweepGroup 100 exDoubleGroup).status = .archived ∧
    (clientSweepGroup 100 exDoubleGroup).disbandReason = some DisbandReason.time_expired ∧
    (sqlProcess 100 exSqlDoubleGroup).status = .archived ∧
    (sqlProcess 100 exSqlDoubleGroup).disband_reason = some SqlReason.expired := by
  have hc := archive_reason_priority.2.1 exDoubleGroup 100 (by decide) (by decide) (by decide)
  have hs := archive_reason_priority.2.2.2 exSqlDoubleGroup 100 rfl (by decide) (by decide)
  exact ⟨hc.1, hc.2, hs.1, hs.2⟩

end FlowGroups

namespace FlowGroups

lemma percentRemaining_eq (g : Group) (now : Int)
    (hlt : g.createdAt < g.expirationTime) :
    percentRemaining g now =
      1 - ((now - g.createdAt : Int) : ℚ) / ((g.expirationTime - g.createdAt : Int) : ℚ) := by
  have hb : ((g.expirationTime - g.createdAt : Int) : ℚ) ≠ 0 :=
    Int.cast_ne_zero.mpr (sub_ne_zero.mpr hlt.ne')
  unfold percentRemaining
  have hsplit : ((g.expirationTime - now : Int) : ℚ) =
      ((g.expirationTime - g.createdAt : Int) : ℚ) - ((now - g.createdAt : Int) : ℚ) := by
    push_cast
    ring
  rw [hsplit, sub_div, div_self hb]

/-- C3: an `Active` group that matches no archive trigger is marked
`Expiring` by the client sweep exactly when the fraction of lifetime
remaining, `1 - (now - createdAt) / (absoluteExpiry - createdAt)`, is
strictly below `0.10`; concretely, a group created at `0` with expiry
`100` is `expiring_soon` after a sweep at `91` and still `active` after a
sweep at `89`; and the SQL expiring UPDATE skips rows whose `expires_at`
is `NULL` entirely. -/
theorem expiring_threshold :
    (∀ (g : Group) (now : Int), g.status = .active →
        archiveTrigger g now = false → g.createdAt < g.expirationTime →
        ((clientSweepGroup now g).status = .expiring_soon ↔
          1 - ((now - g.createdAt : Int) : ℚ) /
              ((g.expirationTime - g.createdAt : Int) : ℚ) < 1/10))
    ∧ (clientSweepGroup 91 exGroup100).status = .expiring_soon
    ∧ (clientSweepGroup 89 exGroup100).status = .active
    ∧ (∀ (g : SqlGroup) (now : Int), g.expires_at = none →
        sqlMarkExpiring now g = g) := by
  refine ⟨?_, ?_, ?_, ?_⟩
  · intro g now hstatus htrig hlt
    rw [clientSweepGroup_of_no_trigger now g (by simp [hstatus]) htrig]
    have key := percentRemaining_eq g now hlt
    have hne : g.status ≠ GroupStatus.expiring_soon := by simp [hstatus]
    unfold expireUpdate
    by_cases hp : percentRemaining g now < 1/10
    · rw [if_pos ⟨hp, hne⟩]
      constructor
      · intro _
        rw [← key]
        exact hp
      · intro _
        rfl
    · rw [if_neg fun hc => hp hc.1]
      constructor
      · intro hcon
        simp [hstatus] at hcon
      · intro hq
        exfalso
        apply hp
        rw [key]
        exact hq
  · norm_num [clientSweepGroup, archiveTrigger, isExpired, isInactive,
      hasReachedMessageLimit, expireUpdate, percentRemaining, exGroup100]
    try decide
  · norm_num [clientSweepGroup, archiveTrigger, isExpired, isInactive,
      hasReachedMessageLimit, expireUpdate, percentRemaining, exGroup100]
    try decide
  · intro g now hnone
    unfold sqlMarkExpiring sqlExpiringCond
    rw [hnone]
    simp

/-- Witness for C3 at the concrete group created at `0` with expiry `100`,
swept at `91`, and at a concrete row without `expires_at`. -/
theorem expiring_threshold_witness :
    (clientSweepGroup 91 exGroup100).status = .expiring_soon ∧
    sqlMarkExpiring 91 exSqlBoundaryGroup = exSqlBoundaryGroup :=
  ⟨(expiring_threshold.1 exGroup100 91 rfl (by decide) (by decide)).mpr
      (by norm_num [exGroup100]),
   expiring_threshold.2.2.2 exSqlBoundaryGroup 91 rfl⟩

end FlowGroups

namespace FlowGroups

/-- C4 counterexample: at the exact boundary `now - lastActivityAt =
inactivityThresholdDays * 1 day`, neither the client sweep nor the SQL
sweep archives the group — both use a strict comparison, so the claimed
archival at the boundary does not happen. -/
theorem inactivity_boundary_counterexample :
    exBoundaryGroup.inactivityThreshold = some 1 ∧
    (86400000 : Int) - exBoundaryGroup.lastActivity = 1 * dayMs ∧
    (clientSweepGroup 86400000 exBoundaryGroup).status = .active ∧
    exSqlBoundaryGroup.inactivity_threshold = some 1 ∧
    exSqlBoundaryGroup.last_activity = 86400000 - 1 * dayMs ∧
    (sqlProcess 86400000 exSqlBoundaryGroup).status = .active := by
  refine ⟨rfl, by decide, ?_, rfl, by decide, by decide⟩
  norm_num [clientSweepGroup, archiveTrigger, isExpired, isInactive,
    hasReachedMessageLimit, expireUpdate, percentRemaining, exBoundaryGroup,
    exGroup100, dayMs]
  try decide

/-- C4 amended: a group with an inactivity threshold and no
earlier-priority trigger is archived with the inactivity reason exactly
when `now - lastActivityAt` STRICTLY exceeds the threshold in days (in
the client: `now - lastActivity > d * 86400000` with the JavaScript
truthiness guard `d ≠ 0`; in SQL: `last_activity < now - d * 1 day`); at
the exact boundary the group is not archived. -/
theorem inactivity_strict_threshold :
    (∀ (g : Group) (now d : Int), g.status ≠ .archived → g.disbandReason = none →
        isExpired g now = false → g.inactivityThreshold = some d → d ≠ 0 →
        ((clientSweepGroup now g).disbandReason = some DisbandReason.inactivity ↔
          now - g.lastActivity > d * dayMs))
    ∧ (∀ (g : SqlGroup) (now d : Int), g.status = .active → g.disband_reason = none →
        sqlTimeCond g now = false → g.inactivity_threshold = some d →
        ((sqlProcess now g).disband_reason = some SqlReason.inactive ↔
          g.last_activity < now - d * dayMs)) := by
  constructor
  · intro g now d hstat hreason hexp hthr hd0
    by_cases hin : isInactive g now = true
    · have htrig : archiveTrigger g now = true := by
        simp [archiveTrigger, hin]
      rw [clientSweepGroup_of_trigger now g hstat htrig]
      have hrsn : clientReason g now = .inactivity := by
        unfold clientReason
        simp [hexp, hin]
      have hrhs : now - g.lastActivity > d * dayMs := by
        unfold isInactive at hin
        rw [hthr] at hin
        simp [Bool.and_eq_true, bne_iff_ne, hd0] at hin
        exact hin
      simp [archiveAt, hrsn, hrhs]
    · have hrhs : ¬ (now - g.lastActivity > d * dayMs) := by
        intro hgt
        apply hin
        unfold isInactive
        rw [hthr]
        simp [Bool.and_eq_true, bne_iff_ne, hd0, hgt]
      by_cases htrig : archiveTrigger g now = true
      · rw [clientSweepGroup_of_trigger now g hstat htrig]
        have hrsn : clientReason g now = .message_limit := by
          unfold clientReason
          simp [hexp, hin]
        simp [archiveAt, hrsn, hrhs]
      · have htrigf : archiveTrigger g now = false := by
          cases hb : archiveTrigger g now with
          | false => rfl
          | true => exact absurd hb htrig
        rw [clientSweepGroup_of_no_trigger now g hstat htrigf]
        have hkeep : (expireUpdate now g).disbandReason = g.disbandReason := by
          unfold expireUpdate
          split <;> rfl
        rw [hkeep, hreason]
        simp [hrhs]
  · intro g now d h hreason ht hthr
    rw [sqlProcess_characterization now g, if_neg (by simp [ht])]
    by_cases hi : sqlInactiveCond g now = true
    · rw [if_pos hi]
      have hrhs : g.last_activity < now - d * dayMs := by
        unfold sqlInactiveCond at hi
        rw [hthr] at hi
        simp [Bool.and_eq_true, beq_iff_eq, h] at hi
        exact hi
      simp [hrhs]
    · rw [if_neg hi]
      have hrhs : ¬ (g.last_activity < now - d * dayMs) := by
        intro hlt
        apply hi
        unfold sqlInactiveCond
        rw [hthr]
        simp [Bool.and_eq_true, beq_iff_eq, h, hlt]
      by_cases hl : sqlLimitCond g = true
      · rw [if_pos hl]
        simp [hrhs]
      · rw [if_neg hl]
        by_cases he : sqlExpiringCond g now = true
        · rw [if_pos he]
          simp [hreason, hrhs]
        · rw [if_neg he]
          simp [hreason, hrhs]

/-- Witness for C4's amended claim one millisecond past the boundary. -/
theorem inactivity_strict_threshold_witness :
    (clientSweepGroup 86400001 exBoundaryGroup).disbandReason =
      some DisbandReason.inactivity ∧
    (sqlProcess 86400001 exSqlBoundaryGroup).disband_reason =
      some SqlReason.inactive :=
  ⟨(inactivity_strict_threshold.1 exBoundaryGroup 86400001 1 (by decide) rfl
      (by decide) rfl (by decide)).mpr (by decide),
   (inactivity_strict_threshold.2 exSqlBoundaryGroup 86400001 1 rfl rfl
      (by decide) rfl).mpr (by decide)⟩

end FlowGroups

namespace FlowGroups

lemma inviteCodeChars_getD_mem (n : Nat) :
    inviteCodeChars.getD n 'A' ∈ inviteCodeChars := by
  rw [List.getD_eq_getElem?_getD]
  cases h : inviteCodeChars[n]? with
  | none =>
    simp only [h, Option.getD_none]
    decide
  | some c =>
    simp only [h, Option.getD_some]
    exact List.getElem?_mem h

/-- C5 counterexample: the client issuer returns whatever six random
draws produce, with no collision check against currently-active codes and
no retry — here a store already holds an active group with code
`"AAAAAA"`, and issuance under a constant random source returns exactly
that colliding code. -/
theorem invite_code_no_retry_counterexample :
    exGroupCode ∈ exStateCode.active ∧
    exGroupCode.status = .active ∧
    exGroupCode.inviteCode = some "AAAAAA" ∧
    generateInviteCode (fun _ => 0) = "AAAAAA" := by
  refine ⟨?_, rfl, rfl, rfl⟩
  simp [exStateCode]

/-- C5 amended: the client issuer always returns a fixed-length
6-character code over the 36-character uppercase alphanumeric alphabet,
independently of the stored groups, with no collision check, no retry and
no capacity error; the SQL issuer retries until the candidate collides
with no existing code — any code it returns is collision-free and drawn
from the candidate stream — but its loop is unbounded, with no attempt
limit and no capacity failure path. -/
theorem invite_code_amended :
    (∀ rand : Nat → Nat,
        (generateInviteCode rand).length = 6 ∧
        ∀ c ∈ (generateInviteCode rand).data, c ∈ inviteCodeChars)
    ∧ (∀ (existingCodes candidates : List String) (c : String),
        sqlGenerateInviteCode existingCodes candidates = some c →
        c ∉ existingCodes ∧ c ∈ candidates) := by
  constructor
  · intro rand
    constructor
    · rfl
    · intro c hc
      unfold generateInviteCode at hc
      simp only [String.mk] at hc
      rw [List.mem_map] at hc
      obtain ⟨i, _, hi⟩ := hc
      rw [← hi]
      exact inviteCodeChars_getD_mem _
  · intro existingCodes candidates c h
    have hp := List.find?_some h
    have hm := List.mem_of_find?_eq_some h
    refine ⟨?_, hm⟩
    intro hmem
    simp at hp
    exact hp hmem

/-- Witness for C5's amended claim: the SQL issuer, fed a stream whose
first candidate collides, returns the first non-colliding candidate. -/
theorem invite_code_amended_witness :
    sqlGenerateInviteCode ["AAAAAA"] ["AAAAAA", "BBB222"] = some "BBB222" ∧
    ("BBB222" ∉ (["AAAAAA"] : List String) ∧
      "BBB222" ∈ (["AAAAAA", "BBB222"] : List String)) :=
  ⟨by decide,
   invite_code_amended.2 ["AAAAAA"] ["AAAAAA", "BBB222"] "BBB222" (by decide)⟩

end FlowGroups

namespace FlowGroups

/-- C6 counterexample: the client join searches the active store by code
and expiry only — it never checks `status` — so a group in `Expiring`
status with an unexpired code is joined successfully (the new member is
added) instead of being rejected with `group_not_active`. -/
theorem join_expiring_group_counterexample :
    exExpiringGroup.status = .expiring_soon ∧
    (joinGroupWithCode exExpiringState "CODE42" "u2" "U2" 50).1 =
      some (joinedGroup exExpiringGroup "u2" "U2" 50) ∧
    (⟨"u2", "U2"⟩ : ChatUser) ∈ (joinedGroup exExpiringGroup "u2" "U2" 50).members := by
  refine ⟨rfl, by decide, by decide⟩

/-- C6 amended: in the client, a join returns `null` exactly when no
group of the active store carries a matching, unexpired invite code
(archived groups are absent from that store, so their codes are
rejected); a join by an existing member returns the group unchanged with
no member added and no distinct rejection reason; every other join
appends `(userId, member)` — the match ignores `status`, so `Expiring`
groups remain joinable.  Only the Supabase implementation restricts the
lookup to groups in `active` status. -/
theorem join_client_behavior :
    (∀ (st : ClientState) (code uid uname : String) (now : Int),
        (∀ g ∈ st.active, codeMatches g code now = false) →
        joinGroupWithCode st code uid uname now = (none, st))
    ∧ (∀ (st : ClientState) (code uid uname : String) (now : Int) (g : Group),
        st.active.find? (fun g => codeMatches g code now) = some g →
        g.members.any (fun m => m.id == uid) = true →
        joinGroupWithCode st code uid uname now = (some g, st))
    ∧ (∀ (st : ClientState) (code uid uname : String) (now : Int) (g : Group),
        st.active.find? (fun g => codeMatches g code now) = some g →
        g.members.any (fun m => m.id == uid) = false →
        joinGroupWithCode st code uid uname now =
          (some (joinedGroup g uid uname now),
            ⟨saveActiveGroup st.active (joinedGroup g uid uname now), st.archived⟩) ∧
        (⟨uid, uname⟩ : ChatUser) ∈ (joinedGroup g uid uname now).members)
    ∧ (∀ (g : Group) (code : String) (now : Int) (s : GroupStatus),
        codeMatches { g with status := s } code now = codeMatches g code now)
    ∧ (∀ (groups : List SbGroup) (code : String) (g : SbGroup),
        sbFindGroupByCode groups code = some g → g.status = .active) := by
  refine ⟨?_, ?_, ?_, ?_, ?_⟩
  · intro st code uid uname now hall
    have hnone : st.active.find? (fun g => codeMatches g code now) = none :=
      List.find?_eq_none.mpr fun g hg => by simp [hall g hg]
    unfold joinGroupWithCode
    rw [hnone]
  · intro st code uid uname now g hfind hmem
    unfold joinGroupWithCode
    rw [hfind]
    simp [hmem]
  · intro st code uid uname now g hfind hmem
    constructor
    · unfold joinGroupWithCode
      rw [hfind]
      simp [hmem]
    · simp [joinedGroup]
  · intro g code now s
    rfl
  · intro groups code g h
    have hp := List.find?_some h
    simp only [Bool.and_eq_true, beq_iff_eq] at hp
    exact hp.2

/-- Witness for C6's amended claim: the Supabase lookup only resolves
groups in `active` status, and a join against an empty store is null. -/
theorem join_client_behavior_witness :
    exSbGroup.status = SqlStatus.active ∧
    joinGroupWithCode (⟨[], []⟩ : ClientState) "X" "u" "U" 0 =
      (none, (⟨[], []⟩ : ClientState)) :=
  ⟨join_client_behavior.2.2.2.2 [exSbGroup] "SB1234" exSbGroup (by decide),
   join_client_behavior.1 ⟨[], []⟩ "X" "u" "U" 0 (by intro g hg; cases hg)⟩

end FlowGroups

namespace FlowGroups

/-- C7: client member removal succeeds only when the acting user is the
group's creator — the one seeded admin of the client model (`createdBy`
is the only privileged identity the client stores) — the creator can
never be the removal target (even when the acting user is the creator
itself), and removing a non-member is a no-op rejection returning the
group unchanged. -/
theorem remove_member_rules :
    (∀ (g : Group) (memberId removedBy : String) (now : Int),
        (removeMember g memberId removedBy now).1 = true →
        removedBy = g.createdBy)
    ∧ (∀ (g : Group) (removedBy : String) (now : Int),
        removeMember g g.createdBy removedBy now = (false, g))
    ∧ (∀ (g : Group) (memberId removedBy : String) (now : Int),
        (∀ m ∈ g.members, m.id ≠ memberId) →
        removeMember g memberId removedBy now = (false, g)) := by
  refine ⟨?_, ?_, ?_⟩
  · intro g memberId removedBy now h
    by_cases h2 : g.createdBy = removedBy
    · exact h2.symm
    · exfalso
      unfold removeMember at h
      by_cases h1 : g.status = .archived
      · rw [if_pos h1] at h
        simp at h
      · rw [if_neg h1, if_pos h2] at h
        simp at h
  · intro g removedBy now
    unfold removeMember
    by_cases h1 : g.status = .archived
    · rw [if_pos h1]
    · rw [if_neg h1]
      by_cases h2 : g.createdBy ≠ removedBy
      · rw [if_pos h2]
      · rw [if_neg h2, if_pos rfl]
  · intro g memberId removedBy now hall
    have hfind : g.members.find? (fun m => m.id == memberId) = none :=
      List.find?_eq_none.mpr fun m hm => by simp [hall m hm]
    unfold removeMember
    by_cases h1 : g.status = .archived
    · rw [if_pos h1]
    · rw [if_neg h1]
      by_cases h2 : g.createdBy ≠ removedBy
      · rw [if_pos h2]
      · rw [if_neg h2]
        by_cases h3 : memberId = g.createdBy
        · rw [if_pos h3]
        · rw [if_neg h3, hfind]

/-- Witness for C7: the creator cannot be removed even by the creator
itself (the sole admin), and removing an unknown id is a no-op. -/
theorem remove_member_rules_witness :
    removeMember exMembersGroup "u1" "u1" 0 = (false, exMembersGroup) ∧
    removeMember exMembersGroup "zz" "u1" 0 = (false, exMembersGroup) :=
  ⟨remove_member_rules.2.1 exMembersGroup "u1" 0,
   remove_member_rules.2.2 exMembersGroup "zz" "u1" 0 (by decide)⟩

end FlowGroups

namespace FlowGroups

/-- C8: archiving at time `T` sets `archivedUntil = T + 30 days`; the
retention cleanup of `loadGroups` is a pure filter (every surviving
record, messages included, is the unchanged input record), a group whose
`archivedUntil` lies strictly in the future survives it, and a group
whose `archivedUntil` is at or before `now` is purged — whole record,
with its contained messages — from the read. -/
theorem retention_purge :
    (∀ (g : Group) (T : Int),
        (archiveAt T g).archivedUntil = some (T + 30 * dayMs))
    ∧ (∀ (l : List Group) (now : Int), (filterArchived l now).Sublist l)
    ∧ (∀ (l : List Group) (g : Group) (u now : Int),
        g ∈ l → g.archivedUntil = some u → now < u →
        g ∈ filterArchived l now)
    ∧ (∀ (l : List Group) (g : Group) (u now : Int),
        g.archivedUntil = some u → u ≤ now →
        g ∉ filterArchived l now) := by
  refine ⟨fun g T => rfl, ?_, ?_, ?_⟩
  · intro l now
    exact List.filter_sublist _
  · intro l g u now hmem harch hlt
    apply List.mem_filter.mpr
    refine ⟨hmem, ?_⟩
    rw [harch]
    simpa using hlt
  · intro l g u now harch hle hmem
    have hp := (List.mem_filter.mp hmem).2
    rw [harch] at hp
    simp at hp
    omega

/-- Witness for C8: a group archived at `T = 0` is present in the read
one millisecond before day 30 and purged at day 31. -/
theorem retention_purge_witness :
    archiveAt 0 exGroup100 ∈
      filterArchived [archiveAt 0 exGroup100] (30 * dayMs - 1) ∧
    archiveAt 0 exGroup100 ∉
      filterArchived [archiveAt 0 exGroup100] (31 * dayMs) :=
  ⟨retention_purge.2.2.1 [archiveAt 0 exGroup100] (archiveAt 0 exGroup100)
      (0 + 30 * dayMs) (30 * dayMs - 1) (by simp) rfl (by norm_num [dayMs]),
   retention_purge.2.2.2 [archiveAt 0 exGroup100] (archiveAt 0 exGroup100)
      (0 + 30 * dayMs) (31 * dayMs) rfl (by norm_num [dayMs])⟩

/-- C9: the client-side test (fraction of time remaining below 0.1) and
the server-side test (`expires_at < now + (expires_at - created_at) * 0.1`)
classify exactly the same groups as expiring for `created < expires`; the
two formulas are algebraically equivalent, and each matches the
corresponding embedded sweep condition. -/
theorem expiring_tests_equivalent :
    (∀ created expires now : ℚ, created < expires → now < expires →
        (clientExpiringTest created expires now ↔
          serverExpiringTest created expires now))
    ∧ (∀ (g : Group) (now : Int),
        clientExpiringTest (g.createdAt : ℚ) (g.expirationTime : ℚ) (now : ℚ) ↔
          percentRemaining g now < 1/10)
    ∧ (∀ (g : SqlGroup) (now e : Int), g.expires_at = some e → g.status = .active →
        (sqlExpiringCond g now = true ↔
          now < e ∧ serverExpiringTest (g.created_at : ℚ) (e : ℚ) (now : ℚ))) := by
  refine ⟨?_, ?_, ?_⟩
  · intro created expires now h1 _h2
    unfold clientExpiringTest serverExpiringTest
    rw [div_lt_iff₀ (by linarith : (0:ℚ) < expires - created)]
    constructor <;> intro h <;> linarith
  · intro g now
    unfold clientExpiringTest percentRemaining
    push_cast
    rfl
  · intro g now e he hst
    unfold sqlExpiringCond serverExpiringTest
    rw [he]
    simp only [hst, Bool.and_eq_true, beq_iff_eq, decide_eq_true_eq]
    push_cast
    tauto

/-- Witness for C9 at `created = 0`, `expires = 100`, `now = 95`. -/
theorem expiring_tests_equivalent_witness :
    clientExpiringTest 0 100 95 ∧ serverExpiringTest 0 100 95 :=
  ⟨by norm_num [clientExpiringTest],
   (expiring_tests_equivalent.1 0 100 95 (by norm_num) (by norm_num)).mp
      (by norm_num [clientExpiringTest])⟩

lemma sweepLoop_no_trigger (now : Int) (l : List Group)
    (h : ∀ g ∈ l, archiveTrigger g now = false) : (sweepLoop now l).2 = [] := by
  induction l with
  | nil => rfl
  | cons g rest ih =>
    have hg : archiveTrigger g now = false := h g (List.mem_cons_self g rest)
    simp only [sweepLoop, hg, Bool.false_eq_true, if_false]
    exact ih fun x hx => h x (List.mem_cons_of_mem g hx)

/-- C10 counterexample: an invocation in which no active group satisfies
any archive trigger still writes to storage — `loadGroups`, called first,
purges archived entries at or past `archivedUntil` and persists the
filtered archived store, so the stored state changes without any group
being archived by the sweep itself. -/
theorem sweep_cleanup_write_counterexample :
    archiveTrigger exGroup100 95 = false ∧
    exStaleState = ⟨[exGroup100], [exStaleArchived]⟩ ∧
    processExpiredGroups exStaleState 95 = ⟨[exGroup100], []⟩ ∧
    processExpiredGroups exStaleState 95 ≠ exStaleState := by
  refine ⟨by decide, rfl, by decide, by decide⟩

/-- C10 amended: in a sweep where no active group satisfies any archive
trigger, the only write-back is the retention cleanup `loadGroups`
performs on the archived store — the active store is returned exactly as
read, so a group marked `expiring_soon` in memory is persisted only when
at least one other group is archived in the same pass; when the cleanup
too has nothing to purge, the whole stored state is unchanged; and the
archival branch appends `newlyArchived` to the cleaned archived list. -/
theorem sweep_frame_cleanup_only :
    (∀ (st : ClientState) (now : Int),
        (∀ g ∈ st.active, archiveTrigger g now = false) →
        processExpiredGroups st now = ⟨st.active, filterArchived st.archived now⟩)
    ∧ (∀ (st : ClientState) (now : Int),
        (∀ g ∈ st.active, archiveTrigger g now = false) →
        filterArchived st.archived now = st.archived →
        processExpiredGroups st now = st)
    ∧ (∀ (st : ClientState) (now : Int),
        (sweepLoop now st.active).2 ≠ [] →
        processExpiredGroups st now =
          ⟨(sweepLoop now st.active).1,
            filterArchived st.archived now ++ (sweepLoop now st.active).2⟩) := by
  have hbase : ∀ (st : ClientState) (now : Int),
      (∀ g ∈ st.active, archiveTrigger g now = false) →
      processExpiredGroups st now = ⟨st.active, filterArchived st.archived now⟩ := by
    intro st now h
    unfold processExpiredGroups
    rw [sweepLoop_no_trigger now st.active h]
    rfl
  refine ⟨hbase, ?_, ?_⟩
  · intro st now h hfil
    rw [hbase st now h, hfil]
  · intro st now hne
    unfold processExpiredGroups
    rw [if_neg (by simp [List.isEmpty_iff, hne])]

/-- Witness for C10's amended claim: the store holding only the group
created at `0` with expiry `100` and an empty archived store, swept at
`95`, is returned unchanged even though the in-memory update marks that
group `expiring_soon`. -/
theorem sweep_frame_cleanup_only_witness :
    processExpiredGroups exState100 95 = exState100 ∧
    (expireUpdate 95 exGroup100).status = .expiring_soon := by
  constructor
  · exact sweep_frame_cleanup_only.2.1 exState100 95
      (by intro g hg; simp [exState100] at hg; subst hg; decide) rfl
  · norm_num [expireUpdate, percentRemaining, exGroup100]
    try decide

end FlowGroups
